import Mathlib

/-!
Verification of the run/checkpoint resumption logic and orchestration
branching of `train_lidog.py` (LiDOG training entry point).

The embedding models:
* `get_last_checkpoint` (lines 142-172): scans a save directory for
  timestamped run folders, picks the latest one by an approximate
  minute-count key, then picks the highest-epoch checkpoint file inside
  its `checkpoints` subdirectory;
* the auto-resume routine of `train` (lines 195-213): successor run
  naming and choice of the checkpoint to resume from;
* `get_run_name` (lines 77-102): run-folder name generation from the
  current GMT time and configuration fields;
* the collation / dataloader wiring (lines 176-192) and the trainer
  module selection (lines 237-284).

Python's `int(...)` on a string is modelled by `pyIntOfChars`: it strips
surrounding whitespace, accepts an optional single leading sign, and
accepts ASCII digit runs with single underscores between digits
(PEP 515).  Non-ASCII unicode digits are not modelled.  `os.listdir`
results are supplied as explicit lists in a `SaveDir` record; a missing
directory is `none` (listing it raises `FileNotFoundError`).
-/

/-- Decimal value of an ASCII digit character. -/
def digitVal (c : Char) : Nat := c.toNat - 48

/-- Digits-with-underscores tail of a Python int literal: after the first
digit, every underscore must be followed by a digit (PEP 515). -/
def intDigitsRest : List Char → Bool
  | [] => true
  | c :: rest =>
    if c = '_' then
      match rest with
      | [] => false
      | d :: rest2 => d.isDigit && intDigitsRest rest2
    else c.isDigit && intDigitsRest rest

/-- A non-empty ASCII digit run, underscores allowed between digits. -/
def intLiteralOK (l : List Char) : Bool :=
  match l with
  | [] => false
  | c :: rest => c.isDigit && intDigitsRest rest

/-- Decimal value of a digit run, ignoring grouping underscores. -/
def intLiteralVal (l : List Char) : Nat :=
  (l.filter (fun c => c != '_')).foldl (fun a c => 10 * a + digitVal c) 0

/-- Core of Python `int(str)` after whitespace stripping: optional single
sign, then a digit run. -/
def pyIntCore (l : List Char) : Option Int :=
  match l with
  | [] => none
  | c :: rest =>
    if c = '-' then
      if intLiteralOK rest then some (-(intLiteralVal rest : Int)) else none
    else if c = '+' then
      if intLiteralOK rest then some ((intLiteralVal rest : Int)) else none
    else
      if intLiteralOK (c :: rest) then some ((intLiteralVal (c :: rest) : Int)) else none

/-- Strip surrounding whitespace, as Python `int(str)` does. -/
def pyTrim (l : List Char) : List Char :=
  ((l.dropWhile Char.isWhitespace).reverse.dropWhile Char.isWhitespace).reverse

/-- Python `int(...)` applied to a character-list slice. -/
def pyIntOfChars (l : List Char) : Option Int :=
  pyIntCore (pyTrim l)

/-- Timestamp key of a run-folder name, from `get_last_checkpoint` lines
152-158: the name is truncated to 16 characters, fixed slices are parsed
(`n[:4]`, `n[5:7]`, `n[8:10]`, `n[11:13]`, `n[14:16]`) and combined as
`years*365*24*60 + months*30*24*60 + days*24*60 + h*60 + m`.
`none` models the `ValueError` raised by a failing `int(...)`. -/
def dateKeyChars (d : List Char) : Option Int :=
  match pyIntOfChars (d.take 4), pyIntOfChars ((d.drop 5).take 2),
        pyIntOfChars ((d.drop 8).take 2), pyIntOfChars ((d.drop 11).take 2),
        pyIntOfChars ((d.drop 14).take 2) with
  | some y, some mo, some da, some h, some mi =>
      some (y * (365 * 24 * 60) + mo * (30 * 24 * 60) + da * (24 * 60) + h * 60 + mi)
  | _, _, _, _, _ => none

/-- Timestamp key of a run-folder name (`n[:16]` then fixed slices). -/
def dateKey (n : String) : Option Int :=
  dateKeyChars (n.data.take 16)

/-- Epoch number encoded in a checkpoint file name, from lines 163-169:
`e = name[6:8]`; if `e` does not end with `"-"` it is parsed whole,
otherwise only `e[0]` is parsed. -/
def epochVal (c : String) : Option Int :=
  let e := (c.data.drop 6).take 2
  if e.getLast? = some '-' then pyIntOfChars (e.take 1) else pyIntOfChars e

/-- Applies `f` to every element, failing as a whole if any application
fails: models a Python list comprehension in which `int(...)` may raise. -/
def mapOpt {α β : Type} (f : α → Option β) : List α → Option (List β)
  | [] => some []
  | x :: xs =>
    match f x, mapOpt f xs with
    | some y, some ys => some (y :: ys)
    | _, _ => none

/-- Maximum of a list of integers (only used on non-empty lists). -/
def listMax : List Int → Int
  | [] => 0
  | [x] => x
  | x :: y :: ys => max x (listMax (y :: ys))

/-- `np.argmax`: index of the first occurrence of the maximum. -/
def argmaxIdx : List Int → Nat
  | [] => 0
  | [_] => 0
  | x :: y :: ys => if listMax (y :: ys) ≤ x then 0 else argmaxIdx (y :: ys) + 1

/-- The run-selection stage of `get_last_checkpoint` (lines 152-159):
parse every entry's timestamp key and take the `np.argmax`.  `none`
models the `ValueError` raised when some entry fails to parse. -/
def selectRunIdx (entries : List String) : Option Nat :=
  match mapOpt dateKey entries with
  | none => none
  | some keys => some (argmaxIdx keys)

/-- Filesystem state visible to `get_last_checkpoint`: whether the save
directory exists, its listing, and for each run folder the listing of
its `checkpoints` subdirectory (`none` when that directory is missing,
in which case `os.listdir` raises). -/
structure SaveDir where
  pathExists : Bool
  entries : List String
  ckptListing : String → Option (List String)

/-- Result of `get_last_checkpoint`: `fresh` is the `(None, None)`
return, `found` the `(checkpoint_path, run_folder_name)` return, `err`
an uncaught Python exception. -/
inductive ResolveOutcome where
  | fresh
  | found (ckpt : String) (run : String)
  | err
deriving DecidableEq, Repr

/-- `get_last_checkpoint` (lines 142-172).  `os.path.join` is modelled
as `"/"`-concatenation.  An empty `checkpoints` listing reaches
`np.argmax` of an empty array, which raises (`err`). -/
def get_last_checkpoint (fs : SaveDir) (save_path : String) : ResolveOutcome :=
  if fs.pathExists = false then .fresh
  else if fs.entries.isEmpty then .fresh
  else
    match selectRunIdx fs.entries with
    | none => .err
    | some idx =>
      let lastPath := fs.entries.getD idx ""
      match fs.ckptListing lastPath with
      | none => .err
      | some allCkpt =>
        match mapOpt epochVal allCkpt with
        | none => .err
        | some ckpts =>
          if ckpts.isEmpty then .err
          else
            .found (save_path ++ "/" ++ lastPath ++ "/checkpoints/" ++
                      allCkpt.getD (argmaxIdx ckpts) "")
                   lastPath

/-- Trainer-module kinds constructed at lines 238 and 261. -/
inductive PLModuleKind where
  | trainer2D
  | trainer2DMulti
deriving DecidableEq, Repr

/-- Trainer-module selection of `train` (lines 237-284): one source
dataset gives `PLTTrainer2D`, two give `PLTTrainer2DMulti`, anything
else raises `ValueError('Source dataset number is not valid')`. -/
def build_pl_module (source_names : List String) : Except String PLModuleKind :=
  if source_names.length = 1 then .ok .trainer2D
  else if source_names.length = 2 then .ok .trainer2DMulti
  else .error "Source dataset number is not valid"

/-- C2 -- The resolver on a non-existent or empty save directory returns
the empty result (`(None, None)`), not an error. -/
theorem c2_fresh_start (fs : SaveDir) (sp : String)
    (h : fs.pathExists = false ∨ fs.entries = []) :
    get_last_checkpoint fs sp = ResolveOutcome.fresh := by
  rcases h with h | h
  · simp [get_last_checkpoint, h]
  · cases hpe : fs.pathExists <;> simp [get_last_checkpoint, h, hpe]

/-- Witness for C2 at a concrete empty save directory. -/
theorem c2_fresh_start_witness :
    get_last_checkpoint ⟨true, [], fun _ => none⟩ "save" = ResolveOutcome.fresh :=
  c2_fresh_start ⟨true, [], fun _ => none⟩ "save" (Or.inr rfl)

/-- C5 -- `train` accepts exactly one or two source domains: any other
count raises `ValueError('Source dataset number is not valid')` instead
of constructing a trainer module; one domain yields `PLTTrainer2D`, two
yield `PLTTrainer2DMulti`. -/
theorem c5_source_count (names : List String) :
    (names.length ≠ 1 → names.length ≠ 2 →
      build_pl_module names = Except.error "Source dataset number is not valid") ∧
    (names.length = 1 → build_pl_module names = Except.ok PLModuleKind.trainer2D) ∧
    (names.length = 2 → build_pl_module names = Except.ok PLModuleKind.trainer2DMulti) := by
  refine ⟨fun h1 h2 => ?_, fun h1 => ?_, fun h2 => ?_⟩
  · simp [build_pl_module, h1, h2]
  · simp [build_pl_module, h1]
  · simp [build_pl_module, h2]

/-- Witness for C5 at concrete domain lists of lengths 3, 1 and 2. -/
theorem c5_source_count_witness :
    build_pl_module ["a", "b", "c"] = Except.error "Source dataset number is not valid" ∧
    build_pl_module ["a"] = Except.ok PLModuleKind.trainer2D ∧
    build_pl_module ["a", "b"] = Except.ok PLModuleKind.trainer2DMulti :=
  ⟨(c5_source_count ["a", "b", "c"]).1 (by decide) (by decide),
   (c5_source_count ["a"]).2.1 (by decide),
   (c5_source_count ["a", "b"]).2.2 (by decide)⟩

theorem mapOpt_length {α β : Type} (f : α → Option β) :
    ∀ (l : List α) (l2 : List β), mapOpt f l = some l2 → l2.length = l.length
  | [], l2, h => by
      simp [mapOpt] at h
      subst h
      rfl
  | x :: xs, l2, h => by
      simp only [mapOpt] at h
      cases hfx : f x with
      | none => rw [hfx] at h; simp at h
      | some y =>
        cases hrest : mapOpt f xs with
        | none => rw [hfx, hrest] at h; simp at h
        | some ys =>
          rw [hfx, hrest] at h
          simp only [Option.some.injEq] at h
          subst h
          simp [mapOpt_length f xs ys hrest]

theorem getD_le_listMax : ∀ (l : List Int) (j : Nat), j < l.length → l.getD j 0 ≤ listMax l
  | [], j, h => by simp at h
  | [x], 0, _ => le_refl x
  | [x], j + 1, h => by simp at h
  | x :: y :: ys, 0, _ => le_max_left _ _
  | x :: y :: ys, j + 1, h => by
      have ih := getD_le_listMax (y :: ys) j (by simpa using h)
      simpa [listMax] using le_trans ih (le_max_right x _)

theorem argmaxIdx_lt_length : ∀ (l : List Int), l ≠ [] → argmaxIdx l < l.length
  | [], h => absurd rfl h
  | [_], _ => by simp [argmaxIdx]
  | x :: y :: ys, _ => by
      by_cases hc : listMax (y :: ys) ≤ x
      · simp [argmaxIdx, hc]
      · have ih := argmaxIdx_lt_length (y :: ys) (by simp)
        simp only [argmaxIdx, if_neg hc, List.length_cons]
        simp only [List.length_cons] at ih
        omega

theorem getD_argmaxIdx : ∀ (l : List Int), l ≠ [] → l.getD (argmaxIdx l) 0 = listMax l
  | [], h => absurd rfl h
  | [_], _ => rfl
  | x :: y :: ys, _ => by
      by_cases hc : listMax (y :: ys) ≤ x
      · simp [argmaxIdx, listMax, hc, max_eq_left hc]
      · have ih := getD_argmaxIdx (y :: ys) (by simp)
        have hx : x ≤ listMax (y :: ys) := le_of_not_le hc
        simp only [argmaxIdx, if_neg hc, List.getD_cons_succ]
        rw [ih]
        simp [listMax, max_eq_right hx]

theorem getD_lt_listMax_of_lt_argmaxIdx :
    ∀ (l : List Int) (j : Nat), j < argmaxIdx l → l.getD j 0 < listMax l
  | [], j, h => by simp [argmaxIdx] at h
  | [_], j, h => by simp [argmaxIdx] at h
  | x :: y :: ys, j, h => by
      by_cases hc : listMax (y :: ys) ≤ x
      · simp [argmaxIdx, hc] at h
      · have hx : x < listMax (y :: ys) := not_le.mp hc
        simp only [argmaxIdx, if_neg hc] at h
        cases j with
        | zero => simpa [listMax, max_eq_right (le_of_lt hx)] using hx
        | succ j =>
          have ih := getD_lt_listMax_of_lt_argmaxIdx (y :: ys) j (by omega)
          simpa [listMax, max_eq_right (le_of_lt hx)] using ih

/-- C1 -- On a non-empty listing whose entries all parse, the resolver
selects the entry with the maximal timestamp key, breaking ties at the
first occurrence; in particular among `2023_05_10_09:00` and
`2023_05_10_10:30` the `10:30` folder (index 1) wins. -/
theorem c1_latest_run_selection (entries : List String) (keys : List Int)
    (hne : entries ≠ []) (hp : mapOpt dateKey entries = some keys) :
    ∃ i, selectRunIdx entries = some i ∧ i < keys.length ∧
      (∀ j, j < keys.length → keys.getD j 0 ≤ keys.getD i 0) ∧
      (∀ j, j < i → keys.getD j 0 < keys.getD i 0) ∧
      selectRunIdx ["2023_05_10_09:00", "2023_05_10_10:30"] = some 1 := by
  have hlen : keys.length = entries.length := mapOpt_length dateKey entries keys hp
  have hkne : keys ≠ [] := by
    intro hk
    subst hk
    exact hne (List.length_eq_zero.mp hlen.symm)
  refine ⟨argmaxIdx keys, ?_, argmaxIdx_lt_length keys hkne, ?_, ?_, by rfl⟩
  · simp [selectRunIdx, hp]
  · intro j hj
    rw [getD_argmaxIdx keys hkne]
    exact getD_le_listMax keys j hj
  · intro j hj
    rw [getD_argmaxIdx keys hkne]
    exact getD_lt_listMax_of_lt_argmaxIdx keys j hj

/-- Witness for C1 at the two-folder listing from the spec. -/
theorem c1_latest_run_selection_witness :
    ∃ i, selectRunIdx ["2023_05_10_09:00", "2023_05_10_10:30"] = some i ∧
      i < ([1063519740, 1063519830] : List Int).length ∧
      (∀ j, j < ([1063519740, 1063519830] : List Int).length →
        ([1063519740, 1063519830] : List Int).getD j 0 ≤
          ([1063519740, 1063519830] : List Int).getD i 0) ∧
      (∀ j, j < i → ([1063519740, 1063519830] : List Int).getD j 0 <
          ([1063519740, 1063519830] : List Int).getD i 0) ∧
      selectRunIdx ["2023_05_10_09:00", "2023_05_10_10:30"] = some 1 :=
  c1_latest_run_selection ["2023_05_10_09:00", "2023_05_10_10:30"]
    [1063519740, 1063519830] (by decide) (by rfl)

theorem mapOpt_eq_none_of_mem {α β : Type} (f : α → Option β) :
    ∀ (l : List α) (a : α), a ∈ l → f a = none → mapOpt f l = none
  | [], a, ha, _ => absurd ha (List.not_mem_nil a)
  | x :: xs, a, ha, hfa => by
      rcases List.mem_cons.mp ha with h | h
      · subst h
        simp [mapOpt, hfa]
      · have hrec := mapOpt_eq_none_of_mem f xs a h hfa
        simp only [mapOpt, hrec]
        cases f x <;> rfl

theorem mapOpt_map {α β γ : Type} (f : β → Option γ) (g : α → β) :
    ∀ (l : List α), mapOpt f (l.map g) = mapOpt (fun x => f (g x)) l
  | [] => rfl
  | x :: xs => by
      simp only [List.map_cons, mapOpt, mapOpt_map f g xs]

/-- A concrete save directory holding one run folder with the two
checkpoint files named in the spec. -/
def exampleFS : SaveDir where
  pathExists := true
  entries := ["2023_05_10_09:00"]
  ckptListing := fun _ => some ["epoch=07-step=100.ckpt", "epoch=12-step=200.ckpt"]

/-- C3 -- When the selected run folder has a non-empty checkpoint
listing that fully parses, the resolver returns the file with the
maximal parsed epoch (first occurrence on ties) joined under
`save_root/run_folder/checkpoints/`, together with the run folder name;
the epoch is the integer at characters 6-7, except that a slice ending
in `-` contributes only its leading digit.  Among `epoch=07-step=100.ckpt`
and `epoch=12-step=200.ckpt` the epoch-12 file is selected. -/
theorem c3_highest_epoch_checkpoint (fs : SaveDir) (sp : String) (ridx : Nat)
    (ckptNames : List String) (eps : List Int)
    (hex : fs.pathExists = true) (hne : fs.entries ≠ [])
    (hsel : selectRunIdx fs.entries = some ridx)
    (hck : fs.ckptListing (fs.entries.getD ridx "") = some ckptNames)
    (hep : mapOpt epochVal ckptNames = some eps)
    (hcne : ckptNames ≠ []) :
    ∃ i, i < ckptNames.length ∧
      get_last_checkpoint fs sp =
        ResolveOutcome.found
          (sp ++ "/" ++ fs.entries.getD ridx "" ++ "/checkpoints/" ++ ckptNames.getD i "")
          (fs.entries.getD ridx "") ∧
      (∀ j, j < eps.length → eps.getD j 0 ≤ eps.getD i 0) ∧
      (∀ j, j < i → eps.getD j 0 < eps.getD i 0) ∧
      epochVal "epoch=07-step=100.ckpt" = some 7 ∧
      epochVal "epoch=12-step=200.ckpt" = some 12 ∧
      epochVal "epoch=7-step=100.ckpt" = some 7 ∧
      get_last_checkpoint exampleFS "save" =
        ResolveOutcome.found "save/2023_05_10_09:00/checkpoints/epoch=12-step=200.ckpt"
          "2023_05_10_09:00" := by
  have hlen : eps.length = ckptNames.length := mapOpt_length epochVal ckptNames eps hep
  have hene : eps ≠ [] := by
    intro hk
    subst hk
    exact hcne (List.length_eq_zero.mp hlen.symm)
  have hempt : fs.entries.isEmpty = false := by
    cases hE : fs.entries
    · exact absurd hE hne
    · rfl
  refine ⟨argmaxIdx eps, ?_, ?_, ?_, ?_, by rfl, by rfl, by rfl, by rfl⟩
  · rw [← hlen]
    exact argmaxIdx_lt_length eps hene
  · have hie : eps.isEmpty = false := by
      cases hE : eps
      · exact absurd hE hene
      · rfl
    have h1 : (fs.pathExists = false) = False := by rw [hex]; simp
    have h2 : (fs.entries.isEmpty = true) = False := by rw [hempt]; simp
    have h3 : (eps.isEmpty = true) = False := by rw [hie]; simp
    unfold get_last_checkpoint
    simp only [h1, h2, if_false]
    simp only [hsel, hck, hep, h3, if_false]
  · intro j hj
    rw [getD_argmaxIdx eps hene]
    exact getD_le_listMax eps j hj
  · intro j hj
    rw [getD_argmaxIdx eps hene]
    exact getD_lt_listMax_of_lt_argmaxIdx eps j hj

/-- Witness for C3 at the concrete example save directory. -/
theorem c3_highest_epoch_checkpoint_witness :
    ∃ i, i < (["epoch=07-step=100.ckpt", "epoch=12-step=200.ckpt"] : List String).length ∧
      get_last_checkpoint exampleFS "save" =
        ResolveOutcome.found
          ("save" ++ "/" ++ exampleFS.entries.getD 0 "" ++ "/checkpoints/" ++
            (["epoch=07-step=100.ckpt", "epoch=12-step=200.ckpt"] : List String).getD i "")
          (exampleFS.entries.getD 0 "") ∧
      (∀ j, j < ([7, 12] : List Int).length →
        ([7, 12] : List Int).getD j 0 ≤ ([7, 12] : List Int).getD i 0) ∧
      (∀ j, j < i → ([7, 12] : List Int).getD j 0 < ([7, 12] : List Int).getD i 0) ∧
      epochVal "epoch=07-step=100.ckpt" = some 7 ∧
      epochVal "epoch=12-step=200.ckpt" = some 12 ∧
      epochVal "epoch=7-step=100.ckpt" = some 7 ∧
      get_last_checkpoint exampleFS "save" =
        ResolveOutcome.found "save/2023_05_10_09:00/checkpoints/epoch=12-step=200.ckpt"
          "2023_05_10_09:00" :=
  c3_highest_epoch_checkpoint exampleFS "save" 0
    ["epoch=07-step=100.ckpt", "epoch=12-step=200.ckpt"] [7, 12]
    rfl (by decide) rfl rfl rfl (by decide)

/-- C6 -- If the selected run folder's `checkpoints` directory lists
zero files, the resolver does not return a result: the epoch selection
runs `np.argmax` on an empty collection, which raises. -/
theorem c6_empty_checkpoint_dir (fs : SaveDir) (sp : String) (ridx : Nat)
    (hex : fs.pathExists = true) (hne : fs.entries ≠ [])
    (hsel : selectRunIdx fs.entries = some ridx)
    (hck : fs.ckptListing (fs.entries.getD ridx "") = some []) :
    get_last_checkpoint fs sp = ResolveOutcome.err := by
  have hempt : fs.entries.isEmpty = false := by
    cases hE : fs.entries
    · exact absurd hE hne
    · rfl
  have h1 : (fs.pathExists = false) = False := by rw [hex]; simp
  have h2 : (fs.entries.isEmpty = true) = False := by rw [hempt]; simp
  unfold get_last_checkpoint
  simp only [h1, h2, if_false]
  simp only [hsel, hck]
  rfl

/-- Witness for C6: one run folder whose checkpoint directory is empty. -/
theorem c6_empty_checkpoint_dir_witness :
    get_last_checkpoint ⟨true, ["2023_05_10_09:00"], fun _ => some []⟩ "save" =
      ResolveOutcome.err :=
  c6_empty_checkpoint_dir ⟨true, ["2023_05_10_09:00"], fun _ => some []⟩ "save" 0 rfl
    (by decide) rfl rfl

/-- C7 -- Malformed names fail fast: if any run-folder entry fails the
fixed-position timestamp parse the resolver raises before selecting
anything, and if the selected folder's listing holds a checkpoint file
whose epoch slice fails to parse the resolver raises rather than
silently skipping it. -/
theorem c7_malformed_names_fail_fast (fs : SaveDir) (sp : String)
    (hex : fs.pathExists = true) (hne : fs.entries ≠ []) :
    ((∃ s ∈ fs.entries, dateKey s = none) →
      get_last_checkpoint fs sp = ResolveOutcome.err) ∧
    (∀ ridx ckptNames, selectRunIdx fs.entries = some ridx →
      fs.ckptListing (fs.entries.getD ridx "") = some ckptNames →
      (∃ c ∈ ckptNames, epochVal c = none) →
      get_last_checkpoint fs sp = ResolveOutcome.err) := by
  have hempt : fs.entries.isEmpty = false := by
    cases hE : fs.entries
    · exact absurd hE hne
    · rfl
  have h1 : (fs.pathExists = false) = False := by rw [hex]; simp
  have h2 : (fs.entries.isEmpty = true) = False := by rw [hempt]; simp
  constructor
  · rintro ⟨s, hs, hnone⟩
    have hm : mapOpt dateKey fs.entries = none :=
      mapOpt_eq_none_of_mem dateKey fs.entries s hs hnone
    have hsel : selectRunIdx fs.entries = none := by simp [selectRunIdx, hm]
    unfold get_last_checkpoint
    simp only [h1, h2, if_false, hsel]
  · rintro ridx ckptNames hsel hck ⟨c, hc, hcnone⟩
    have hm : mapOpt epochVal ckptNames = none :=
      mapOpt_eq_none_of_mem epochVal ckptNames c hc hcnone
    unfold get_last_checkpoint
    simp only [h1, h2, if_false, hsel, hck, hm]

/-- Witness for C7: a listing with an unparsable folder name, and a
parsable folder holding an unparsable checkpoint file name. -/
theorem c7_malformed_names_fail_fast_witness :
    get_last_checkpoint ⟨true, ["run-without-timestamp"], fun _ => none⟩ "save" =
      ResolveOutcome.err ∧
    get_last_checkpoint ⟨true, ["2023_05_10_09:00"], fun _ => some ["model.pt"]⟩ "save" =
      ResolveOutcome.err :=
  ⟨(c7_malformed_names_fail_fast ⟨true, ["run-without-timestamp"], fun _ => none⟩ "save"
      rfl (by decide)).1 ⟨"run-without-timestamp", by decide, by rfl⟩,
   (c7_malformed_names_fail_fast ⟨true, ["2023_05_10_09:00"], fun _ => some ["model.pt"]⟩
      "save" rfl (by decide)).2 0 ["model.pt"] rfl rfl ⟨"model.pt", by decide, by rfl⟩⟩

/-- C10 -- Run selection depends only on the first 16 characters of each
entry name: two listings that agree position-wise on their 16-character
name beginnings yield the same selected index. -/
theorem c10_selection_ignores_suffix (l1 l2 : List String)
    (h : l1.map (fun s => s.data.take 16) = l2.map (fun s => s.data.take 16)) :
    selectRunIdx l1 = selectRunIdx l2 := by
  have key : mapOpt dateKey l1 = mapOpt dateKey l2 := by
    calc mapOpt dateKey l1
        = mapOpt dateKeyChars (l1.map (fun s => s.data.take 16)) :=
          (mapOpt_map dateKeyChars (fun s : String => s.data.take 16) l1).symm
      _ = mapOpt dateKeyChars (l2.map (fun s => s.data.take 16)) := by rw [h]
      _ = mapOpt dateKey l2 := mapOpt_map dateKeyChars (fun s : String => s.data.take 16) l2
  unfold selectRunIdx
  rw [key]

/-- Witness for C10: the same timestamps carrying different model and
dataset suffixes select the same run index. -/
theorem c10_selection_ignores_suffix_witness :
    selectRunIdx ["2023_05_10_09:00MinkUNet34BEVSemanticKITTI",
                  "2023_05_10_10:30MinkUNet34BEVSynth4D"] =
      selectRunIdx ["2023_05_10_09:00_BS4_SGD", "2023_05_10_10:30_Adam"] :=
  c10_selection_ignores_suffix
    ["2023_05_10_09:00MinkUNet34BEVSemanticKITTI", "2023_05_10_10:30MinkUNet34BEVSynth4D"]
    ["2023_05_10_09:00_BS4_SGD", "2023_05_10_10:30_Adam"] (by rfl)

/-- Configuration fields read by the auto-resume routine. -/
structure ResumeConfig where
  save_dir : String
  lightning_resume : Option String

/-- Outcome of the auto-resume routine: the checkpoint to pass to
`trainer.fit(ckpt_path=...)`, the run name, and the save directory;
`err` propagates an exception from `get_last_checkpoint`. -/
inductive ResumePlan where
  | plan (resume_ckpt : Option String) (run_name : String) (save_dir : String)
  | err
deriving DecidableEq, Repr

/-- Auto-resume routine of `train` (lines 195-213, `args.auto_resume`
set): on a found run, a successor run name is derived (last digit
incremented via `str(int(run_name[-1]) + 1)`, otherwise `"-PT2"`
appended) and training resumes from the returned checkpoint;
`fresh_name` stands for the `get_run_name(config)` value used on the
fresh-start path. -/
def auto_resume_routine (fs : SaveDir) (cfg : ResumeConfig) (fresh_name : String) :
    ResumePlan :=
  match get_last_checkpoint fs cfg.save_dir with
  | .err => .err
  | .fresh => .plan cfg.lightning_resume fresh_name (cfg.save_dir ++ "/" ++ fresh_name)
  | .found ckpt run_name =>
      if run_name.back.isDigit then
        .plan (some ckpt)
          (run_name.dropRight 1 ++ toString (run_name.back.toNat - '0'.toNat + 1))
          (cfg.save_dir ++ "/" ++
            (run_name.dropRight 1 ++ toString (run_name.back.toNat - '0'.toNat + 1)))
      else
        .plan (some ckpt) (run_name ++ "-PT2")
          (cfg.save_dir ++ "/" ++ (run_name ++ "-PT2"))

/-- C4 -- With auto-resume on and a non-empty resolved run name, the
successor run name replaces a trailing digit `d` by the decimal
representation of `d + 1` and otherwise appends `"-PT2"`, and training
resumes from the checkpoint path returned by the resolver. -/
theorem c4_successor_run_name (fs : SaveDir) (cfg : ResumeConfig)
    (fresh_name p nm : String)
    (hf : get_last_checkpoint fs cfg.save_dir = ResolveOutcome.found p nm)
    (hnm : nm ≠ "") :
    auto_resume_routine fs cfg fresh_name =
      ResumePlan.plan (some p)
        (if nm.back.isDigit then nm.dropRight 1 ++ toString (nm.back.toNat - '0'.toNat + 1)
         else nm ++ "-PT2")
        (cfg.save_dir ++ "/" ++
          (if nm.back.isDigit then nm.dropRight 1 ++ toString (nm.back.toNat - '0'.toNat + 1)
           else nm ++ "-PT2")) ∧
    auto_resume_routine ⟨true, ["2023_05_10_09:00_R9"], fun _ => some ["epoch=01-v.ckpt"]⟩
        ⟨"save", none⟩ "fresh" =
      ResumePlan.plan (some "save/2023_05_10_09:00_R9/checkpoints/epoch=01-v.ckpt")
        "2023_05_10_09:00_R10" "save/2023_05_10_09:00_R10" ∧
    auto_resume_routine ⟨true, ["2023_05_10_09:00_AUG"], fun _ => some ["epoch=01-v.ckpt"]⟩
        ⟨"save", none⟩ "fresh" =
      ResumePlan.plan (some "save/2023_05_10_09:00_AUG/checkpoints/epoch=01-v.ckpt")
        "2023_05_10_09:00_AUG-PT2" "save/2023_05_10_09:00_AUG-PT2" := by
  refine ⟨?_, by rfl, by rfl⟩
  unfold auto_resume_routine
  rw [hf]
  by_cases hd : nm.back.isDigit <;> simp [hd]

/-- Witness for C4: a run folder whose name ends in the digit 9. -/
theorem c4_successor_run_name_witness :
    auto_resume_routine ⟨true, ["2023_05_10_09:00_R9"], fun _ => some ["epoch=01-v.ckpt"]⟩
        ⟨"save", none⟩ "fresh" =
      ResumePlan.plan (some "save/2023_05_10_09:00_R9/checkpoints/epoch=01-v.ckpt")
        (if ("2023_05_10_09:00_R9" : String).back.isDigit then
          ("2023_05_10_09:00_R9" : String).dropRight 1 ++
            toString (("2023_05_10_09:00_R9" : String).back.toNat - '0'.toNat + 1)
         else "2023_05_10_09:00_R9" ++ "-PT2")
        ("save" ++ "/" ++
          (if ("2023_05_10_09:00_R9" : String).back.isDigit then
            ("2023_05_10_09:00_R9" : String).dropRight 1 ++
              toString (("2023_05_10_09:00_R9" : String).back.toNat - '0'.toNat + 1)
           else "2023_05_10_09:00_R9" ++ "-PT2")) :=
  (c4_successor_run_name ⟨true, ["2023_05_10_09:00_R9"], fun _ => some ["epoch=01-v.ckpt"]⟩
    ⟨"save", none⟩ "fresh" "save/2023_05_10_09:00_R9/checkpoints/epoch=01-v.ckpt"
    "2023_05_10_09:00_R9" rfl (by decide)).1

/-- Training dataset produced by `get_source_domains`: a lone dataset or
a `MultiBEVSourceDataset` wrapping the per-domain datasets. -/
inductive TrainingData where
  | single (domain : String)
  | multi (domains : List String)
deriving DecidableEq, Repr

/-- `isinstance(training_dataset, MultiBEVSourceDataset)` (line 179). -/
def TrainingData.isMulti : TrainingData → Bool
  | .single _ => false
  | .multi _ => true

/-- Validation datasets produced by `get_source_domains`: a lone dataset
when one domain is configured, otherwise the per-domain list. -/
inductive ValData where
  | single (domain : String)
  | multi (domains : List String)
deriving DecidableEq, Repr

/-- `get_source_domains` (lines 104-140): with one configured domain the
lone training/validation pair is kept; otherwise the training datasets
are wrapped in `MultiBEVSourceDataset` and validation stays a list. -/
def get_source_domains (names : List String) : TrainingData × ValData :=
  if names.length = 1 then (.single (names.getD 0 ""), .single (names.getD 0 ""))
  else (.multi names, .multi names)

/-- The three collation classes imported at line 17. -/
inductive Collate where
  | plain
  | singleBEV
  | multiBEV
deriving DecidableEq, Repr

/-- Line 179: `CollateFNMultiSourceBEVMultiLevel()` when the training
dataset is a `MultiBEVSourceDataset`, else
`CollateFNSingleSourceBEVMultiLevel()`. -/
def collation_source (td : TrainingData) : Collate :=
  match td with
  | .multi _ => .multiBEV
  | .single _ => .singleBEV

/-- Training dataloader construction (lines 181-184): its collation
function and shuffle flag. -/
def training_loader (names : List String) : Collate × Bool :=
  (collation_source (get_source_domains names).1, true)

/-- Validation dataloader construction (lines 186-192): one dataloader
per validation dataset when more than one source domain is configured,
else a single dataloader; every one uses `CollateFN()` and no shuffle. -/
def validation_loaders (names : List String) : List (Collate × Bool) :=
  if 1 < names.length then
    match (get_source_domains names).2 with
    | .multi ds => ds.map (fun _ => (Collate.plain, false))
    | .single _ => [(Collate.plain, false)]
  else [(Collate.plain, false)]

/-- C8 -- Validation always uses the plain collation `CollateFN`: one
domain yields one validation dataloader, several yield one per domain,
all with `CollateFN`; the multi-source collation appears only on the
training dataloader, exactly when the training dataset is the
multi-source dataset. -/
theorem c8_validation_collation (names : List String) :
    (∀ L ∈ validation_loaders names, L = (Collate.plain, false)) ∧
    (names.length = 1 → validation_loaders names = [(Collate.plain, false)]) ∧
    (1 < names.length → (validation_loaders names).length = names.length) ∧
    ((training_loader names).1 = Collate.multiBEV ↔
      (get_source_domains names).1.isMulti = true) := by
  refine ⟨?_, ?_, ?_, ?_⟩
  · intro L hL
    by_cases hm : 1 < names.length
    · have hne1 : ¬(names.length = 1) := by omega
      simp only [validation_loaders, if_pos hm, get_source_domains, if_neg hne1] at hL
      simp only [List.mem_map] at hL
      exact hL.choose_spec.2.symm
    · simp only [validation_loaders, if_neg hm, List.mem_singleton] at hL
      exact hL
  · intro h1
    have hm : ¬(1 < names.length) := by omega
    simp [validation_loaders, hm]
  · intro hm
    have hne1 : ¬(names.length = 1) := by omega
    simp [validation_loaders, hm, get_source_domains, hne1]
  · by_cases h1 : names.length = 1
    · simp [training_loader, get_source_domains, collation_source, h1, TrainingData.isMulti]
    · simp [training_loader, get_source_domains, collation_source, h1, TrainingData.isMulti]

/-- Witness for C8 at one- and two-domain configurations. -/
theorem c8_validation_collation_witness :
    validation_loaders ["semantickitti"] = [(Collate.plain, false)] ∧
    (validation_loaders ["semantickitti", "synth4d"]).length = 2 ∧
    (training_loader ["semantickitti", "synth4d"]).1 = Collate.multiBEV :=
  ⟨(c8_validation_collation ["semantickitti"]).2.1 (by decide),
   (c8_validation_collation ["semantickitti", "synth4d"]).2.2.1 (by decide),
   (c8_validation_collation ["semantickitti", "synth4d"]).2.2.2.mpr (by decide)⟩

/-- ASCII digit character of a value below ten. -/
def digitChar : Nat → Char
  | 0 => '0'
  | 1 => '1'
  | 2 => '2'
  | 3 => '3'
  | 4 => '4'
  | 5 => '5'
  | 6 => '6'
  | 7 => '7'
  | 8 => '8'
  | _ => '9'

theorem digitChar_isDigit (n : Nat) (h : n < 10) : (digitChar n).isDigit = true := by
  interval_cases n <;> decide

theorem digitVal_digitChar (n : Nat) (h : n < 10) : digitVal (digitChar n) = n := by
  interval_cases n <;> decide

theorem isDigit_ne {c d : Char} (h : c.isDigit = true) (hd : d.isDigit = false) : c ≠ d := by
  intro he
  subst he
  rw [h] at hd
  exact Bool.noConfusion hd

theorem isDigit_not_ws {c : Char} (h : c.isDigit = true) : c.isWhitespace = false := by
  cases hw : c.isWhitespace
  · rfl
  · exfalso
    simp only [Char.isWhitespace, Bool.or_eq_true, decide_eq_true_eq] at hw
    rcases hw with ((h1 | h1) | h1) | h1 <;> subst h1 <;> exact absurd h (by decide)

theorem dropWhile_ws_eq_self {l : List Char} (h : ∀ c ∈ l, c.isWhitespace = false) :
    l.dropWhile Char.isWhitespace = l := by
  cases l with
  | nil => rfl
  | cons c t =>
    have hc := h c (List.mem_cons_self c t)
    simp [List.dropWhile_cons, hc]

theorem pyTrim_eq_self {l : List Char} (h : ∀ c ∈ l, c.isWhitespace = false) :
    pyTrim l = l := by
  unfold pyTrim
  rw [dropWhile_ws_eq_self h]
  rw [dropWhile_ws_eq_self (fun c hc => h c (List.mem_reverse.mp hc))]
  exact List.reverse_reverse l

theorem intDigitsRest_of_digits : ∀ {l : List Char}, l.all Char.isDigit = true →
    intDigitsRest l = true
  | [], _ => rfl
  | c :: t, h => by
      simp only [List.all_cons, Bool.and_eq_true] at h
      have hne : c ≠ '_' := isDigit_ne h.1 (by decide)
      rw [intDigitsRest.eq_def]
      simp only [if_neg hne, h.1, Bool.true_and]
      exact intDigitsRest_of_digits h.2

theorem intLiteralOK_of_digits {l : List Char} (hne : l ≠ []) (h : l.all Char.isDigit = true) :
    intLiteralOK l = true := by
  cases l with
  | nil => exact absurd rfl hne
  | cons c t =>
    simp only [List.all_cons, Bool.and_eq_true] at h
    simp only [intLiteralOK, h.1, Bool.true_and]
    exact intDigitsRest_of_digits h.2

theorem intLiteralVal_of_digits {l : List Char} (h : l.all Char.isDigit = true) :
    intLiteralVal l = l.foldl (fun a c => 10 * a + digitVal c) 0 := by
  unfold intLiteralVal
  have hf : l.filter (fun c => c != '_') = l := by
    apply List.filter_eq_self.mpr
    intro a ha
    have hd := (List.all_eq_true.mp h) a ha
    exact bne_iff_ne.mpr (isDigit_ne hd (by decide))
  rw [hf]

theorem pyIntOfChars_digits {l : List Char} (hne : l ≠ []) (h : l.all Char.isDigit = true) :
    pyIntOfChars l = some ((l.foldl (fun a c => 10 * a + digitVal c) 0 : Nat) : Int) := by
  unfold pyIntOfChars
  rw [pyTrim_eq_self (fun c hc => isDigit_not_ws ((List.all_eq_true.mp h) c hc))]
  cases l with
  | nil => exact absurd rfl hne
  | cons c t =>
    have hall := h
    simp only [List.all_cons, Bool.and_eq_true] at h
    have h1 : ¬(c = '-') := isDigit_ne h.1 (by decide)
    have h2 : ¬(c = '+') := isDigit_ne h.1 (by decide)
    have hok := intLiteralOK_of_digits (List.cons_ne_nil c t) hall
    simp only [pyIntCore, if_neg h1, if_neg h2, hok, if_true]
    rw [intLiteralVal_of_digits hall]

theorem pyIntOfChars_two (a b : Nat) (ha : a < 10) (hb : b < 10) :
    pyIntOfChars [digitChar a, digitChar b] = some ((10 * a + b : Nat) : Int) := by
  rw [pyIntOfChars_digits (by simp)
    (by simp [List.all_cons, digitChar_isDigit a ha, digitChar_isDigit b hb])]
  simp only [List.foldl_cons, List.foldl_nil, digitVal_digitChar a ha, digitVal_digitChar b hb]
  congr 1
  omega

theorem pyIntOfChars_four (a b c d : Nat) (ha : a < 10) (hb : b < 10) (hc : c < 10)
    (hd : d < 10) :
    pyIntOfChars [digitChar a, digitChar b, digitChar c, digitChar d] =
      some ((1000 * a + 100 * b + 10 * c + d : Nat) : Int) := by
  rw [pyIntOfChars_digits (by simp) (by simp [List.all_cons, digitChar_isDigit a ha,
    digitChar_isDigit b hb, digitChar_isDigit c hc, digitChar_isDigit d hd])]
  simp only [List.foldl_cons, List.foldl_nil, digitVal_digitChar a ha, digitVal_digitChar b hb,
    digitVal_digitChar c hc, digitVal_digitChar d hd]
  congr 1
  omega

/-- A broken-down GMT time as delivered by `time.gmtime()`. -/
structure Tm where
  year : Nat
  month : Nat
  day : Nat
  hour : Nat
  minute : Nat

/-- Zero-padded two-digit decimal rendering (strftime `%m`/`%d`/`%H`/`%M`
for in-range values). -/
def fmt2 (n : Nat) : List Char := [digitChar (n / 10), digitChar (n % 10)]

/-- Four-digit decimal rendering (strftime `%Y` for four-digit years). -/
def fmt4 (n : Nat) : List Char :=
  [digitChar (n / 1000), digitChar (n / 100 % 10), digitChar (n / 10 % 10), digitChar (n % 10)]

/-- `time.strftime("%Y_%m_%d_%H:%M", time.gmtime())` (line 79). -/
def timeStampChars (t : Tm) : List Char :=
  fmt4 t.year ++ '_' :: (fmt2 t.month ++ '_' :: (fmt2 t.day ++ '_' ::
    (fmt2 t.hour ++ ':' :: fmt2 t.minute)))

/-- The timestamp as a string, the first component of `run_time`. -/
def strftime_run_time (t : Tm) : String := String.mk (timeStampChars t)

/-- Configuration fields read by `get_run_name`; fields rendered through
Python `str(...)` at lines 94-99 are held as their rendered strings. -/
structure RunCfg where
  model_name : String
  source_names : List String
  target_names : List String
  wandb_run_name : Option String
  batch_size : Nat
  optimizer_name : String
  lr_repr : String
  scheduler_name : String
  sem_criterion : String
  sem_bev_criterion : String
  augmentation_list : Option (List String)

/-- `get_run_name` (lines 77-102): the timestamp, then the model name,
then either the named-run branch (source/target names, wandb run name)
or the unnamed branch, then batching/optimizer/loss fields. -/
def get_run_name (t : Tm) (cfg : RunCfg) : String :=
  let run_time := strftime_run_time t ++ cfg.model_name
  let source_name := String.join cfg.source_names
  let target_name := String.join cfg.target_names
  let base :=
    match cfg.wandb_run_name with
    | some w => run_time ++ source_name ++ "-TO-" ++ target_name ++ "_" ++ w ++ "_"
    | none => run_time ++ "_"
  base ++ "BS" ++ toString cfg.batch_size ++ "_" ++ cfg.optimizer_name ++ "_" ++
    cfg.lr_repr ++ "_" ++ cfg.scheduler_name ++ "_" ++ cfg.sem_criterion ++ "_" ++
    cfg.sem_bev_criterion ++ "_" ++
    (if cfg.augmentation_list.isSome then "AUG" else "NO_AUG")

theorem dateKeyChars_layout (y1 y2 y3 y4 m1 m2 d1 d2 h1 h2 i1 i2 s1 s2 s3 s4 : Char) :
    dateKeyChars [y1, y2, y3, y4, s1, m1, m2, s2, d1, d2, s3, h1, h2, s4, i1, i2] =
      (match pyIntOfChars [y1, y2, y3, y4], pyIntOfChars [m1, m2], pyIntOfChars [d1, d2],
             pyIntOfChars [h1, h2], pyIntOfChars [i1, i2] with
       | some y, some mo, some da, some h, some mi =>
           some (y * (365 * 24 * 60) + mo * (30 * 24 * 60) + da * (24 * 60) + h * 60 + mi)
       | _, _, _, _, _ => none) := rfl

theorem pyIntOfChars_fmt2 (n : Nat) (h : n ≤ 99) :
    pyIntOfChars (fmt2 n) = some ((n : Nat) : Int) := by
  unfold fmt2
  rw [pyIntOfChars_two (n / 10) (n % 10) (by omega) (by omega)]
  congr 1
  omega

theorem pyIntOfChars_fmt4 (n : Nat) (h : n ≤ 9999) :
    pyIntOfChars (fmt4 n) = some ((n : Nat) : Int) := by
  unfold fmt4
  rw [pyIntOfChars_four (n / 1000) (n / 100 % 10) (n / 10 % 10) (n % 10)
    (by omega) (by omega) (by omega) (by omega)]
  congr 1
  omega

theorem dateKeyChars_timeStamp (t : Tm) (hy2 : t.year ≤ 9999) (hmo : t.month ≤ 99)
    (hd : t.day ≤ 99) (hh : t.hour ≤ 99) (hmi : t.minute ≤ 99) :
    dateKeyChars (timeStampChars t) =
      some ((t.year : Int) * (365 * 24 * 60) + (t.month : Int) * (30 * 24 * 60) +
        (t.day : Int) * (24 * 60) + (t.hour : Int) * 60 + (t.minute : Int)) := by
  have hts : timeStampChars t =
      [digitChar (t.year / 1000), digitChar (t.year / 100 % 10), digitChar (t.year / 10 % 10),
       digitChar (t.year % 10), '_', digitChar (t.month / 10), digitChar (t.month % 10), '_',
       digitChar (t.day / 10), digitChar (t.day % 10), '_', digitChar (t.hour / 10),
       digitChar (t.hour % 10), ':', digitChar (t.minute / 10), digitChar (t.minute % 10)] := rfl
  rw [hts, dateKeyChars_layout]
  rw [show [digitChar (t.year / 1000), digitChar (t.year / 100 % 10),
        digitChar (t.year / 10 % 10), digitChar (t.year % 10)] = fmt4 t.year from rfl,
      show [digitChar (t.month / 10), digitChar (t.month % 10)] = fmt2 t.month from rfl,
      show [digitChar (t.day / 10), digitChar (t.day % 10)] = fmt2 t.day from rfl,
      show [digitChar (t.hour / 10), digitChar (t.hour % 10)] = fmt2 t.hour from rfl,
      show [digitChar (t.minute / 10), digitChar (t.minute % 10)] = fmt2 t.minute from rfl]
  rw [pyIntOfChars_fmt4 t.year hy2, pyIntOfChars_fmt2 t.month hmo, pyIntOfChars_fmt2 t.day hd,
      pyIntOfChars_fmt2 t.hour hh, pyIntOfChars_fmt2 t.minute hmi]

theorem take16_append2 (s r : String) (ts : List Char)
    (h : s.data.take 16 = ts ∧ 16 ≤ s.data.length) :
    (s ++ r).data.take 16 = ts ∧ 16 ≤ (s ++ r).data.length := by
  constructor
  · rw [String.data_append, List.take_append_eq_append_take, h.1, Nat.sub_eq_zero_of_le h.2]
    simp
  · rw [String.data_append, List.length_append]
    omega

/-- C9 -- Every run name produced by the generator begins with the
16-character timestamp `YYYY_MM_DD_HH:MM` (separators `'_'` at positions
4, 7 and 10 and `':'` at position 13, digits elsewhere), on both the
named-run and unnamed-run branches, and the Checkpoint Resolver parses
that beginning to the expected timestamp key. -/
theorem c9_run_name_timestamp (t : Tm) (cfg : RunCfg)
    (hy1 : 1000 ≤ t.year) (hy2 : t.year ≤ 9999) (hmo : t.month ≤ 99)
    (hd : t.day ≤ 99) (hh : t.hour ≤ 99) (hmi : t.minute ≤ 99) :
    (get_run_name t cfg).data.take 16 = timeStampChars t ∧
    dateKey (get_run_name t cfg) =
      some ((t.year : Int) * (365 * 24 * 60) + (t.month : Int) * (30 * 24 * 60) +
        (t.day : Int) * (24 * 60) + (t.hour : Int) * 60 + (t.minute : Int)) ∧
    (∃ a1 a2 a3 a4 b1 b2 d1 d2 e1 e2 f1 f2 : Char,
      (a1.isDigit ∧ a2.isDigit ∧ a3.isDigit ∧ a4.isDigit ∧ b1.isDigit ∧ b2.isDigit ∧
       d1.isDigit ∧ d2.isDigit ∧ e1.isDigit ∧ e2.isDigit ∧ f1.isDigit ∧ f2.isDigit) ∧
      timeStampChars t =
        [a1, a2, a3, a4, '_', b1, b2, '_', d1, d2, '_', e1, e2, ':', f1, f2]) := by
  have hlen : (timeStampChars t).length = 16 := rfl
  have hP : (get_run_name t cfg).data.take 16 = timeStampChars t ∧
      16 ≤ (get_run_name t cfg).data.length := by
    have hbase : (strftime_run_time t).data.take 16 = timeStampChars t ∧
        16 ≤ (strftime_run_time t).data.length :=
      ⟨List.take_of_length_le hlen.le, hlen.ge⟩
    simp only [get_run_name]
    cases hw : cfg.wandb_run_name with
    | some w =>
      generalize hs : strftime_run_time t = s0 at hbase ⊢
      repeat apply take16_append2
      exact hbase
    | none =>
      generalize hs : strftime_run_time t = s0 at hbase ⊢
      repeat apply take16_append2
      exact hbase
  refine ⟨hP.1, ?_, ?_⟩
  · unfold dateKey
    rw [hP.1]
    exact dateKeyChars_timeStamp t hy2 hmo hd hh hmi
  · refine ⟨digitChar (t.year / 1000), digitChar (t.year / 100 % 10),
      digitChar (t.year / 10 % 10), digitChar (t.year % 10), digitChar (t.month / 10),
      digitChar (t.month % 10), digitChar (t.day / 10), digitChar (t.day % 10),
      digitChar (t.hour / 10), digitChar (t.hour % 10), digitChar (t.minute / 10),
      digitChar (t.minute % 10),
      ⟨?_, ?_, ?_, ?_, ?_, ?_, ?_, ?_, ?_, ?_, ?_, ?_⟩, rfl⟩
    all_goals exact digitChar_isDigit _ (by omega)

/-- Witness for C9 at a concrete GMT time and configuration. -/
theorem c9_run_name_timestamp_witness :
    (get_run_name ⟨2023, 5, 10, 9, 0⟩
        ⟨"MinkUNet34BEV", ["synth4d"], ["semantickitti"], none, 4, "SGD", "0.01",
         "CosineAnnealingLR", "CELoss", "SoftDiceLoss", none⟩).data.take 16 =
      timeStampChars ⟨2023, 5, 10, 9, 0⟩ ∧
    dateKey (get_run_name ⟨2023, 5, 10, 9, 0⟩
        ⟨"MinkUNet34BEV", ["synth4d"], ["semantickitti"], none, 4, "SGD", "0.01",
         "CosineAnnealingLR", "CELoss", "SoftDiceLoss", none⟩) =
      some (((2023 : Nat) : Int) * (365 * 24 * 60) + ((5 : Nat) : Int) * (30 * 24 * 60) +
        ((10 : Nat) : Int) * (24 * 60) + ((9 : Nat) : Int) * 60 + ((0 : Nat) : Int)) ∧
    (∃ a1 a2 a3 a4 b1 b2 d1 d2 e1 e2 f1 f2 : Char,
      (a1.isDigit ∧ a2.isDigit ∧ a3.isDigit ∧ a4.isDigit ∧ b1.isDigit ∧ b2.isDigit ∧
       d1.isDigit ∧ d2.isDigit ∧ e1.isDigit ∧ e2.isDigit ∧ f1.isDigit ∧ f2.isDigit) ∧
      timeStampChars ⟨2023, 5, 10, 9, 0⟩ =
        [a1, a2, a3, a4, '_', b1, b2, '_', d1, d2, '_', e1, e2, ':', f1, f2]) :=
  c9_run_name_timestamp ⟨2023, 5, 10, 9, 0⟩
    ⟨"MinkUNet34BEV", ["synth4d"], ["semantickitti"], none, 4, "SGD", "0.01",
     "CosineAnnealingLR", "CELoss", "SoftDiceLoss", none⟩
    (by decide) (by decide) (by decide) (by decide) (by decide) (by decide)
